import Mathlib

/-!
Verification development for the NumberGenerator repository (`main.go`).

The program joins a fixed table of 3-digit carrier prefixes with user-supplied
4-digit middle codes and all 4-digit suffixes, writing one 11-digit number per
line to an output file.  The definitions below are a shallow embedding of the
Go source: the file system is an `Option String` (the contents of
`config.json`, when the file exists), console input is a list of lines, and
the buffered writer of the generator is an event trace together with a
write-error oracle.
-/

set_option maxHeartbeats 1000000

/-- The China Mobile prefixes of `initDefaultSegments`. -/
def crawledMobile : List String :=
  ["134", "135", "136", "137", "138", "139", "147", "150", "151", "152",
   "157", "158", "159", "178", "182", "183", "184", "187", "188", "198"]

/-- The China Unicom prefixes of `initDefaultSegments`. -/
def crawledUnicom : List String :=
  ["130", "131", "132", "145", "155", "156", "166", "175", "176", "185", "186"]

/-- The China Telecom prefixes of `initDefaultSegments`. -/
def crawledTelecom : List String :=
  ["133", "149", "153", "173", "177", "180", "181", "189", "199"]

/-- `append(append(crawledMobile, crawledUnicom...), crawledTelecom...)` in
`generatePhoneNumbers`: the flattened prefix list, Mobile, Unicom, Telecom. -/
def allSegments : List String :=
  crawledMobile ++ crawledUnicom ++ crawledTelecom

/-- Model of Go `fmt.Sprintf("%04d", n)` on the arguments the generator
passes, namely `0 ≤ n < 10000`: the four decimal digits of `n`, zero padded
to width 4. -/
def sprintf04 (n : Nat) : String :=
  String.mk [Char.ofNat (48 + n / 1000 % 10), Char.ofNat (48 + n / 100 % 10),
             Char.ofNat (48 + n / 10 % 10), Char.ofNat (48 + n % 10)]

/-- The phone numbers enumerated by the three nested loops of
`generatePhoneNumbers`, in loop order: prefix outermost, then middle code,
then suffix ascending `0`-`9999`. -/
def phoneList (middleCodes : List String) : List String :=
  allSegments.flatMap fun seg =>
    middleCodes.flatMap fun middle =>
      (List.range 10000).map fun suffix => seg ++ middle ++ sprintf04 suffix

/-- Observable actions of `generatePhoneNumbers` on its output file:
a buffered write of a chunk, a buffer flush, and closing the file handle. -/
inductive Event where
  | write (chunk : String)
  | flush
  | close
deriving DecidableEq

/-- The writer state threaded through the generation loop: the trace of
events so far and the `generatedCount` counter of the Go code. -/
structure GenState where
  events : List Event
  generatedCount : Nat
deriving DecidableEq

/-- The body of the nested loops of `generatePhoneNumbers`, as a recursion
over the loop-order list of phone numbers.  `writeErr n` is the I/O outcome
of the `n`-th `writer.WriteString` call (`some cause` models a failing
write); on a failing write the function returns at once with the wrapped
error, translating the early `return` of the Go loop.  A successful write
appends the chunk `phone ++ "\n"` and, every 10000 numbers, a buffer flush. -/
def writeLoop (writeErr : Nat → Option String) :
    List String → GenState → GenState × Option String
  | [], st => (st, none)
  | phone :: rest, st =>
    match writeErr st.generatedCount with
    | some cause => (st, some ("failed to write to file: " ++ cause))
    | none =>
      let st1 : GenState :=
        ⟨st.events ++ [Event.write (phone ++ "\n")], st.generatedCount + 1⟩
      let st2 : GenState :=
        if st1.generatedCount % 10000 == 0 then
          ⟨st1.events ++ [Event.flush], st1.generatedCount⟩
        else st1
      writeLoop writeErr rest st2

/-- Model of `generatePhoneNumbers`.  `createErr` is the outcome of
`os.Create` (`some cause` models a failing creation, in which case nothing
is written and no handle exists).  On success of `os.Create`, the loop runs
and, whatever its outcome, the deferred `writer.Flush()` and `file.Close()`
run in that order, so the trace always ends with a flush and a close. -/
def generatePhoneNumbers (createErr : Option String)
    (writeErr : Nat → Option String) (middleCodes : List String) :
    Except String Unit × List Event :=
  match createErr with
  | some cause => (Except.error ("failed to create file: " ++ cause), [])
  | none =>
    let r := writeLoop writeErr (phoneList middleCodes) ⟨[], 0⟩
    let events := r.1.events ++ [Event.flush, Event.close]
    match r.2 with
    | some msg => (Except.error msg, events)
    | none => (Except.ok (), events)

/-- The chunks handed to `writer.WriteString`, in order, extracted from an
event trace.  Each chunk is one phone number followed by a newline, so the
chunks are exactly the lines of the output file. -/
def writesOf (events : List Event) : List String :=
  events.filterMap fun e =>
    match e with
    | Event.write s => some s
    | _ => none

/-- Model of Go `strings.TrimSpace` on the ASCII whitespace the console
delivers: drop leading and trailing whitespace characters. -/
def trimSpace (s : String) : String :=
  String.mk (((s.data.dropWhile Char.isWhitespace).reverse.dropWhile Char.isWhitespace).reverse)

/-- Splitting a character list at every comma; the backbone of Go
`strings.Split(s, ",")`. -/
def splitCommaChars : List Char → List (List Char)
  | [] => [[]]
  | c :: rest =>
    match splitCommaChars rest with
    | [] => [[]]
    | group :: groups =>
      if c = ',' then [] :: group :: groups else (c :: group) :: groups

/-- Model of Go `strings.Split(s, ",")`. -/
def splitOnComma (s : String) : List String :=
  (splitCommaChars s.data).map String.mk

/-- Model of the Go regular expression `^\d{4}$` (`validRegex`): exactly
four characters, all ASCII digits. -/
def matchesD4 (s : String) : Bool :=
  s.length == 4 && s.data.all Char.isDigit

/-- The regular expression `^\d{11}$` of the specification: exactly eleven
characters, all ASCII digits. -/
def matchesD11 (s : String) : Bool :=
  s.length == 11 && s.data.all Char.isDigit

/-- JSON values, as far as `encoding/json` is exercised by this program.
Number literals are kept as raw text; the program never reads them. -/
inductive Json where
  | null
  | bool (b : Bool)
  | num (lit : String)
  | str (s : String)
  | arr (elems : List Json)
  | obj (fields : List (String × Json))

/-- Skip JSON insignificant whitespace. -/
def skipWs : List Char → List Char
  | [] => []
  | c :: cs => if c = ' ' ∨ c = '\t' ∨ c = '\n' ∨ c = '\r' then skipWs cs else c :: cs

/-- Parse the body of a JSON string literal, after its opening quote, up to
and including its closing quote; basic escapes only. -/
def parseStringBody : List Char → Except String (List Char × List Char)
  | [] => Except.error "unexpected end of JSON input"
  | '"' :: cs => Except.ok ([], cs)
  | '\\' :: [] => Except.error "unexpected end of JSON input"
  | '\\' :: c :: cs =>
    match (match c with
           | '"' => some '"'
           | '\\' => some '\\'
           | '/' => some '/'
           | 'n' => some '\n'
           | 't' => some '\t'
           | 'r' => some '\r'
           | _ => none) with
    | some e =>
      match parseStringBody cs with
      | Except.ok (s, rest) => Except.ok (e :: s, rest)
      | Except.error msg => Except.error msg
    | none => Except.error "invalid escape in string literal"
  | c :: cs =>
    match parseStringBody cs with
    | Except.ok (s, rest) => Except.ok (c :: s, rest)
    | Except.error msg => Except.error msg

/-- Characters a JSON number literal may contain. -/
def isNumChar (c : Char) : Bool :=
  c.isDigit || c = '-' || c = '+' || c = '.' || c = 'e' || c = 'E'

/-- Parse a JSON number literal, kept as raw text. -/
def parseNumberLit (cs : List Char) : Except String (String × List Char) :=
  let lit := cs.takeWhile isNumChar
  if lit.any Char.isDigit then Except.ok (String.mk lit, cs.dropWhile isNumChar)
  else Except.error "invalid character looking for beginning of value"

mutual

/-- Fuel-bounded recursive-descent parser for one JSON value, modelling the
reading half of `json.NewDecoder(file).Decode`.  Returns the value and the
unconsumed input. -/
def parseValue : Nat → List Char → Except String (Json × List Char)
  | 0, _ => Except.error "value nesting too deep"
  | _ + 1, [] => Except.error "unexpected end of JSON input"
  | fuel + 1, c :: cs =>
    if c = 'n' then
      match cs with
      | 'u' :: 'l' :: 'l' :: rest => Except.ok (Json.null, rest)
      | _ => Except.error "invalid character looking for beginning of value"
    else if c = 't' then
      match cs with
      | 'r' :: 'u' :: 'e' :: rest => Except.ok (Json.bool true, rest)
      | _ => Except.error "invalid character looking for beginning of value"
    else if c = 'f' then
      match cs with
      | 'a' :: 'l' :: 's' :: 'e' :: rest => Except.ok (Json.bool false, rest)
      | _ => Except.error "invalid character looking for beginning of value"
    else if c = '"' then
      match parseStringBody cs with
      | Except.ok (s, rest) => Except.ok (Json.str (String.mk s), rest)
      | Except.error msg => Except.error msg
    else if c = '[' then
      match skipWs cs with
      | ']' :: rest => Except.ok (Json.arr [], rest)
      | cs1 =>
        match parseValue fuel cs1 with
        | Except.ok (v, rest) =>
          match parseElemsRest fuel rest with
          | Except.ok (vs, rest1) => Except.ok (Json.arr (v :: vs), rest1)
          | Except.error msg => Except.error msg
        | Except.error msg => Except.error msg
    else if c = '\x7b' then
      match skipWs cs with
      | '\x7d' :: rest => Except.ok (Json.obj [], rest)
      | cs1 =>
        match parseField fuel cs1 with
        | Except.ok (f, rest) =>
          match parseFieldsRest fuel rest with
          | Except.ok (fs, rest1) => Except.ok (Json.obj (f :: fs), rest1)
          | Except.error msg => Except.error msg
        | Except.error msg => Except.error msg
    else parseNumberLit (c :: cs) |>.map fun r => (Json.num r.1, r.2)

/-- After one array element: a comma and a further element, or the closing
bracket. -/
def parseElemsRest : Nat → List Char → Except String (List Json × List Char)
  | 0, _ => Except.error "value nesting too deep"
  | fuel + 1, cs =>
    match skipWs cs with
    | ',' :: rest =>
      match parseValue fuel (skipWs rest) with
      | Except.ok (v, rest1) =>
        match parseElemsRest fuel rest1 with
        | Except.ok (vs, rest2) => Except.ok (v :: vs, rest2)
        | Except.error msg => Except.error msg
      | Except.error msg => Except.error msg
    | ']' :: rest => Except.ok ([], rest)
    | _ => Except.error "invalid character after array element"

/-- One `"key": value` member of a JSON object. -/
def parseField : Nat → List Char → Except String ((String × Json) × List Char)
  | 0, _ => Except.error "value nesting too deep"
  | fuel + 1, cs =>
    match cs with
    | '"' :: cs1 =>
      match parseStringBody cs1 with
      | Except.ok (k, rest) =>
        match skipWs rest with
        | ':' :: rest1 =>
          match parseValue fuel (skipWs rest1) with
          | Except.ok (v, rest2) => Except.ok ((String.mk k, v), rest2)
          | Except.error msg => Except.error msg
        | _ => Except.error "invalid character after object key"
      | Except.error msg => Except.error msg
    | _ => Except.error "invalid character looking for object key"

/-- After one object member: a comma and a further member, or the closing
brace. -/
def parseFieldsRest : Nat → List Char → Except String (List (String × Json) × List Char)
  | 0, _ => Except.error "value nesting too deep"
  | fuel + 1, cs =>
    match skipWs cs with
    | ',' :: rest =>
      match parseField fuel (skipWs rest) with
      | Except.ok (f, rest1) =>
        match parseFieldsRest fuel rest1 with
        | Except.ok (fs, rest2) => Except.ok (f :: fs, rest2)
        | Except.error msg => Except.error msg
      | Except.error msg => Except.error msg
    | '\x7d' :: rest => Except.ok ([], rest)
    | _ => Except.error "invalid character after object field"

end

/-- One `Decode` call of `json.NewDecoder(file)`: parse the first JSON value
of the file contents (a single `Decode` does not consume trailing data). -/
def parseTopValue (content : String) : Except String Json :=
  match parseValue (content.length + 1) (skipWs content.data) with
  | Except.ok (j, _) => Except.ok j
  | Except.error msg => Except.error msg

deriving instance DecidableEq for Except

/-- The `Config` struct of `main.go`. -/
structure Config where
  middleCodes : List String
deriving DecidableEq

/-- The default configuration `loadConfig` creates when `config.json` is
missing. -/
def defaultConfig : Config := ⟨["0537", "0100", "0210", "0755"]⟩

/-- Unmarshalling of the `middleCodes` field into `[]string`, as
`encoding/json` does it: `null` gives the nil slice, an array must contain
only strings. -/
def decodeStringList : Json → Except String (List String)
  | Json.null => Except.ok []
  | Json.arr elems =>
    elems.mapM fun j =>
      match j with
      | Json.str s => Except.ok s
      | _ => Except.error "cannot unmarshal value into field middleCodes of type []string"
  | _ => Except.error "cannot unmarshal value into field middleCodes of type []string"

/-- Unmarshalling of a JSON value into the `Config` struct: an object whose
`middleCodes` member (last occurrence wins, absent means nil) is decoded as
a string list; top-level `null` leaves the zero value. -/
def decodeConfig : Json → Except String Config
  | Json.null => Except.ok ⟨[]⟩
  | Json.obj fields =>
    match (fields.filter fun f => f.1 == "middleCodes").getLast? with
    | none => Except.ok ⟨[]⟩
    | some f =>
      match decodeStringList f.2 with
      | Except.ok codes => Except.ok ⟨codes⟩
      | Except.error msg => Except.error msg
  | _ => Except.error "cannot unmarshal value into Go value of type main.Config"

/-- `json.NewDecoder(file).Decode(&config)` on the file contents. -/
def parseConfig (content : String) : Except String Config :=
  match parseTopValue content with
  | Except.ok j => decodeConfig j
  | Except.error msg => Except.error msg

/-- Model of `json.MarshalIndent(cfg, "", "  ")` for a `Config` whose codes
contain no character needing JSON escaping (true of all 4-digit codes): the
indented object text Go produces. -/
def marshalConfig (c : Config) : String :=
  match c.middleCodes with
  | [] => "\x7b\n  \"middleCodes\": []\n\x7d"
  | codes =>
    "\x7b\n  \"middleCodes\": [\n" ++
      String.intercalate ",\n" (codes.map fun s => "    \"" ++ s ++ "\"") ++
      "\n  ]\n\x7d"

/-- Model of `loadConfig`.  The file system argument is the contents of
`config.json`, `none` when the file does not exist.  When missing, the
default config is marshalled, written, and returned without re-reading;
when present, the contents are decoded — a decode failure is wrapped in the
parse-error message — and on success the codes are filtered to 4-digit
numbers (invalid ones are reported and skipped). -/
def loadConfig (fs : Option String) : Except String Config × Option String :=
  match fs with
  | none => (Except.ok defaultConfig, some (marshalConfig defaultConfig))
  | some content =>
    match parseConfig content with
    | Except.error cause =>
      (Except.error
        ("failed to parse config.json format (check commas and quotes): " ++ cause),
       some content)
    | Except.ok config =>
      (Except.ok ⟨config.middleCodes.filter fun code => matchesD4 code⟩, some content)

/-- One iteration of the filtering loop of `inputMiddleCodes`: trim the raw
token and keep it when it matches `^\d{4}$` and was not seen before.  The
`seen` map of the Go code holds exactly the codes already kept, so
membership in the accumulator stands in for it. -/
def collectStep (acc : List String) (code : String) : List String :=
  let code := trimSpace code
  if matchesD4 code && !(acc.contains code) then acc ++ [code] else acc

/-- The filtering loop of `inputMiddleCodes` over all raw tokens. -/
def collectValid (rawCodes : List String) : List String :=
  rawCodes.foldl collectStep []

/-- Model of `inputMiddleCodes` on one line of console input: trim the
line, reject it when blank, split on commas, filter and de-duplicate, and
reject the result when nothing survived. -/
def inputMiddleCodes (text : String) : Except String (List String) :=
  let input := trimSpace text
  if input == "" then Except.error "input cannot be empty"
  else
    let validCodes := collectValid (splitOnComma input)
    if validCodes.isEmpty then
      Except.error "no valid middle codes detected (must enter 4-digit numbers separated by commas)"
    else Except.ok validCodes

/-- The result of `selectMiddleCodes`: the chosen middle codes, the `error`
return value of the Go function (every `return` in the source returns a nil
error), and the file system after the call (option 1 may create
`config.json`). -/
structure SelectResult where
  middleCodes : List String
  err : Option String
  fs : Option String
deriving DecidableEq

/-- The `case "1"` body of the menu switch in `selectMiddleCodes`: load
(or create) the config; on failure report it and signal a retry (`none`),
otherwise fall back to `["0537"]` when the code list is empty and return
the codes with a nil error.  The second component is the file system after
the call. -/
def selectChoice1 (fs : Option String) : Option SelectResult × Option String :=
  match loadConfig fs with
  | (Except.error _, fs') => (none, fs')
  | (Except.ok config, fs') =>
    let middleCodes :=
      if config.middleCodes.isEmpty then ["0537"] else config.middleCodes
    (some ⟨middleCodes, none, fs'⟩, fs')

/-- The `case "2"` body of the menu switch: resolve one line of manual
input; on an input error report it and signal a retry (`none`). -/
def selectChoice2 (fs : Option String) (line : String) : Option SelectResult :=
  match inputMiddleCodes line with
  | Except.error _ => none
  | Except.ok codes => some ⟨codes, none, fs⟩

/-- Model of the menu loop of `selectMiddleCodes`, driven by a finite list
of console input lines; `none` means the script ran out of input while the
loop was still prompting.  Option 1 reads (or creates) the config, option 2
consumes one more line of manual input; a reported error (`none` from the
case body) re-prompts, which `Option.orElse` expresses. -/
def selectMiddleCodes (fs : Option String) : List String → Option SelectResult
  | [] => none
  | choice :: rest =>
    if trimSpace choice == "1" then
      let p := selectChoice1 fs
      p.1.orElse fun _ => selectMiddleCodes p.2 rest
    else if trimSpace choice == "2" then
      match rest with
      | [] => selectChoice2 fs ""
      | line :: rest' =>
        (selectChoice2 fs line).orElse fun _ => selectMiddleCodes fs rest'
    else selectMiddleCodes fs rest

theorem writesOf_append (a b : List Event) :
    writesOf (a ++ b) = writesOf a ++ writesOf b := by
  simp [writesOf]

theorem writeLoop_noFail (phones : List String) : ∀ st : GenState,
    (writeLoop (fun _ => none) phones st).2 = none ∧
    writesOf (writeLoop (fun _ => none) phones st).1.events =
      writesOf st.events ++ phones.map (fun p => p ++ "\n") := by
  induction phones with
  | nil => intro st; simp [writeLoop]
  | cons phone rest ih =>
    intro st
    simp only [writeLoop]
    split
    · rename_i hcond
      refine ⟨(ih _).1, ?_⟩
      rw [(ih _).2]
      simp [writesOf]
    · rename_i hcond
      refine ⟨(ih _).1, ?_⟩
      rw [(ih _).2]
      simp [writesOf]

theorem writes_run (M : List String) :
    writesOf (generatePhoneNumbers none (fun _ => none) M).2 =
      (phoneList M).map (fun p => p ++ "\n") := by
  have h := writeLoop_noFail (phoneList M) ⟨[], 0⟩
  simp only [generatePhoneNumbers]
  rw [h.1]
  rw [writesOf_append, h.2]
  simp [writesOf]

theorem length_phoneList (M : List String) :
    (phoneList M).length = 40 * M.length * 10000 := by
  have hinner : ∀ seg : String,
      (M.flatMap fun middle =>
        (List.range 10000).map fun suffix => seg ++ middle ++ sprintf04 suffix).length
        = M.length * 10000 := by
    intro seg
    simp [List.length_flatMap, Function.comp_def, List.map_const', List.sum_replicate,
      smul_eq_mul]
  have h40 : allSegments.length = 40 := by decide
  simp only [phoneList, List.length_flatMap, Function.comp_def, hinner]
  simp [List.map_const', List.sum_replicate, smul_eq_mul, h40]
  ring

/-- C1: a run of the generator with no write failure writes exactly
`40 × |M| × 10000` lines for every middle-code list `M`, the prefix count
40 being the 20 Mobile, 11 Unicom and 9 Telecom entries flattened. -/
theorem c1_generator_line_count (M : List String) :
    crawledMobile.length = 20 ∧ crawledUnicom.length = 11 ∧
    crawledTelecom.length = 9 ∧ allSegments.length = 40 ∧
    (writesOf (generatePhoneNumbers none (fun _ => none) M).2).length =
      40 * M.length * 10000 := by
  refine ⟨by decide, by decide, by decide, by decide, ?_⟩
  rw [writes_run, List.length_map, length_phoneList]

/-- C3: the generator emits the numbers in nested loop order, prefixes in
the flattened Mobile, Unicom, Telecom order, middle codes in list order,
and the zero-padded suffix innermost ascending from 0 to 9999. -/
theorem c3_generator_emission_order (M : List String) :
    allSegments = crawledMobile ++ crawledUnicom ++ crawledTelecom ∧
    writesOf (generatePhoneNumbers none (fun _ => none) M).2 =
      (allSegments.flatMap fun seg =>
        M.flatMap fun middle =>
          (List.range 10000).map fun suffix =>
            seg ++ middle ++ sprintf04 suffix ++ "\n") := by
  refine ⟨rfl, ?_⟩
  rw [writes_run]
  simp [phoneList, List.map_flatMap, List.map_map, Function.comp_def, String.append_assoc]

theorem allSegments_facts :
    allSegments.all (fun s => s.length == 3 && s.data.all Char.isDigit) = true := by
  decide

theorem isDigit_digitChar : ∀ d < 10, (Char.ofNat (48 + d)).isDigit = true := by
  decide

theorem sprintf04_length (n : Nat) : (sprintf04 n).length = 4 := rfl

theorem sprintf04_digits (n : Nat) : (sprintf04 n).data.all Char.isDigit = true := by
  have h1 : n / 1000 % 10 < 10 := Nat.mod_lt _ (by omega)
  have h2 : n / 100 % 10 < 10 := Nat.mod_lt _ (by omega)
  have h3 : n / 10 % 10 < 10 := Nat.mod_lt _ (by omega)
  have h4 : n % 10 < 10 := Nat.mod_lt _ (by omega)
  simp [sprintf04, isDigit_digitChar _ h1, isDigit_digitChar _ h2,
    isDigit_digitChar _ h3, isDigit_digitChar _ h4]

theorem digitChar_inj :
    ∀ a < 10, ∀ b < 10, Char.ofNat (48 + a) = Char.ofNat (48 + b) → a = b := by
  decide

theorem sprintf04_inj (m n : Nat) (hm : m < 10000) (hn : n < 10000)
    (h : sprintf04 m = sprintf04 n) : m = n := by
  have h' : (sprintf04 m).data = (sprintf04 n).data := congrArg String.data h
  simp only [sprintf04, List.cons.injEq, and_true] at h'
  obtain ⟨h1, h2, h3, h4⟩ := h'
  have e1 := digitChar_inj _ (Nat.mod_lt _ (by omega)) _ (Nat.mod_lt _ (by omega)) h1
  have e2 := digitChar_inj _ (Nat.mod_lt _ (by omega)) _ (Nat.mod_lt _ (by omega)) h2
  have e3 := digitChar_inj _ (Nat.mod_lt _ (by omega)) _ (Nat.mod_lt _ (by omega)) h3
  have e4 := digitChar_inj _ (Nat.mod_lt _ (by omega)) _ (Nat.mod_lt _ (by omega)) h4
  omega

theorem string_append_inj (a b c d : String) (hlen : a.length = c.length)
    (h : a ++ b = c ++ d) : a = c ∧ b = d := by
  have hd : a.data ++ b.data = c.data ++ d.data := by
    simpa [String.data_append] using congrArg String.data h
  have hl : a.data.length = c.data.length := hlen
  have := List.append_inj hd hl
  exact ⟨String.ext this.1, String.ext this.2⟩

/-- C2: with a valid middle-code list, a failure-free run writes only
chunks of the form `prefix ++ middle ++ zero-padded suffix ++ "\n"` with
the number part matching the pattern of eleven digits, and distinct
(prefix, middle, suffix) triples produce distinct numbers. -/
theorem c2_generator_line_shape (M : List String)
    (hM : ∀ m ∈ M, matchesD4 m = true) :
    (∀ line ∈ writesOf (generatePhoneNumbers none (fun _ => none) M).2,
      ∃ seg middle suffix, seg ∈ allSegments ∧ middle ∈ M ∧ suffix < 10000 ∧
        line = seg ++ middle ++ sprintf04 suffix ++ "\n" ∧
        matchesD11 (seg ++ middle ++ sprintf04 suffix) = true) ∧
    (∀ seg middle suffix seg2 middle2 suffix2,
      seg ∈ allSegments → middle ∈ M → suffix < 10000 →
      seg2 ∈ allSegments → middle2 ∈ M → suffix2 < 10000 →
      seg ++ middle ++ sprintf04 suffix = seg2 ++ middle2 ++ sprintf04 suffix2 →
      seg = seg2 ∧ middle = middle2 ∧ suffix = suffix2) := by
  have hseg : ∀ s ∈ allSegments, s.length = 3 ∧ s.data.all Char.isDigit = true := by
    intro s hs
    have := List.all_eq_true.mp allSegments_facts s hs
    simp only [Bool.and_eq_true, beq_iff_eq] at this
    exact this
  have hmid : ∀ m ∈ M, m.length = 4 ∧ m.data.all Char.isDigit = true := by
    intro m hm
    have := hM m hm
    simp only [matchesD4, Bool.and_eq_true, beq_iff_eq] at this
    exact this
  constructor
  · intro line hline
    rw [writes_run] at hline
    simp only [List.mem_map, phoneList, List.mem_flatMap, List.mem_range] at hline
    obtain ⟨phone, ⟨seg, hs, middle, hm, suffix, hsuf, rfl⟩, rfl⟩ := hline
    refine ⟨seg, middle, suffix, hs, hm, hsuf, by simp [String.append_assoc], ?_⟩
    simp only [matchesD11, Bool.and_eq_true, beq_iff_eq]
    constructor
    · simp [String.length_append, (hseg seg hs).1, (hmid middle hm).1, sprintf04_length]
    · simp [String.data_append, List.all_append, (hseg seg hs).2, (hmid middle hm).2,
        sprintf04_digits]
  · intro seg middle suffix seg2 middle2 suffix2 hs hm hsuf hs2 hm2 hsuf2 heq
    have heq' : seg ++ (middle ++ sprintf04 suffix) =
        seg2 ++ (middle2 ++ sprintf04 suffix2) := by
      simpa [String.append_assoc] using heq
    have h1 := string_append_inj seg (middle ++ sprintf04 suffix) seg2
      (middle2 ++ sprintf04 suffix2) (by rw [(hseg seg hs).1, (hseg seg2 hs2).1]) heq'
    have h2 := string_append_inj middle (sprintf04 suffix) middle2 (sprintf04 suffix2)
      (by rw [(hmid middle hm).1, (hmid middle2 hm2).1]) h1.2
    exact ⟨h1.1, h2.1, sprintf04_inj _ _ hsuf hsuf2 h2.2⟩

theorem collectStep_valid (acc : List String) (code : String)
    (h : ∀ c ∈ acc, matchesD4 c = true) :
    ∀ c ∈ collectStep acc code, matchesD4 c = true := by
  intro c hc
  simp only [collectStep] at hc
  split at hc
  · rename_i hcond
    rcases List.mem_append.mp hc with h1 | h1
    · exact h c h1
    · simp only [List.mem_singleton] at h1
      subst h1
      exact (Bool.and_eq_true ..).mp hcond |>.1
  · exact h c hc

theorem collectStep_nodup (acc : List String) (code : String)
    (h : acc.Nodup) : (collectStep acc code).Nodup := by
  simp only [collectStep]
  split
  · rename_i hcond
    have hnotmem : trimSpace code ∉ acc := by
      have h2 := (Bool.and_eq_true ..).mp hcond |>.2
      simpa [List.contains] using h2
    simpa [List.nodup_append, h] using hnotmem
  · exact h

theorem collectStep_mem (acc : List String) (code : String) (c : String) :
    c ∈ collectStep acc code ↔
      c ∈ acc ∨ (c = trimSpace code ∧ matchesD4 c = true) := by
  simp only [collectStep]
  split
  · rename_i hcond
    rw [Bool.and_eq_true] at hcond
    simp only [List.mem_append, List.mem_singleton]
    constructor
    · rintro (h | rfl)
      · exact Or.inl h
      · exact Or.inr ⟨rfl, hcond.1⟩
    · rintro (h | ⟨rfl, _⟩)
      · exact Or.inl h
      · exact Or.inr rfl
  · rename_i hcond
    rw [Bool.and_eq_true, not_and_or] at hcond
    constructor
    · exact Or.inl
    · rintro (h | ⟨rfl, hd⟩)
      · exact h
      · rcases hcond with h | h
        · exact absurd hd h
        · simpa using h

theorem collectValid_go_valid (raw : List String) : ∀ acc : List String,
    (∀ c ∈ acc, matchesD4 c = true) →
    ∀ c ∈ raw.foldl collectStep acc, matchesD4 c = true := by
  induction raw with
  | nil => intro acc h; simpa using h
  | cons code rest ih =>
    intro acc h
    exact ih (collectStep acc code) (collectStep_valid acc code h)

theorem collectValid_go_nodup (raw : List String) : ∀ acc : List String,
    acc.Nodup → (raw.foldl collectStep acc).Nodup := by
  induction raw with
  | nil => intro acc h; simpa using h
  | cons code rest ih =>
    intro acc h
    exact ih (collectStep acc code) (collectStep_nodup acc code h)

theorem collectValid_go_mem (raw : List String) : ∀ acc c,
    c ∈ raw.foldl collectStep acc ↔
      c ∈ acc ∨ (c ∈ raw.map trimSpace ∧ matchesD4 c = true) := by
  induction raw with
  | nil => intro acc c; simp
  | cons code rest ih =>
    intro acc c
    rw [List.foldl_cons, ih, collectStep_mem]
    simp only [List.map_cons, List.mem_cons]
    constructor
    · rintro ((h | ⟨rfl, hd⟩) | ⟨hm, hd⟩)
      · exact Or.inl h
      · exact Or.inr ⟨Or.inl rfl, hd⟩
      · exact Or.inr ⟨Or.inr hm, hd⟩
    · rintro (h | ⟨hm | hm, hd⟩)
      · exact Or.inl (Or.inl h)
      · exact Or.inl (Or.inr ⟨hm, hd⟩)
      · exact Or.inr ⟨hm, hd⟩

theorem collectValid_valid (raw : List String) :
    ∀ c ∈ collectValid raw, matchesD4 c = true :=
  collectValid_go_valid raw [] (by simp)

theorem collectValid_nodup (raw : List String) : (collectValid raw).Nodup :=
  collectValid_go_nodup raw [] List.nodup_nil

theorem collectValid_mem (raw : List String) (c : String) :
    c ∈ collectValid raw ↔ c ∈ raw.map trimSpace ∧ matchesD4 c = true := by
  rw [collectValid, collectValid_go_mem]
  simp

theorem inputMiddleCodes_ok (text : String) (codes : List String)
    (h : inputMiddleCodes text = Except.ok codes) :
    codes = collectValid (splitOnComma (trimSpace text)) ∧ codes ≠ [] ∧
    (∀ c ∈ codes, matchesD4 c = true) ∧ codes.Nodup := by
  simp only [inputMiddleCodes] at h
  split at h
  · exact absurd h (by simp)
  · split at h
    · exact absurd h (by simp)
    · rename_i hne
      have hc : codes = collectValid (splitOnComma (trimSpace text)) := by
        injection h with h'
        exact h'.symm
      subst hc
      refine ⟨rfl, ?_, collectValid_valid _, collectValid_nodup _⟩
      intro hnil
      rw [hnil] at hne
      simp at hne

theorem loadConfig_ok_valid (fs : Option String) (cfg : Config) (fs' : Option String)
    (h : loadConfig fs = (Except.ok cfg, fs')) :
    ∀ c ∈ cfg.middleCodes, matchesD4 c = true := by
  cases fs with
  | none =>
    simp only [loadConfig, Prod.mk.injEq, Except.ok.injEq] at h
    rw [← h.1]
    decide
  | some content =>
    simp only [loadConfig] at h
    split at h
    · simp at h
    · simp only [Prod.mk.injEq, Except.ok.injEq] at h
      rw [← h.1]
      intro c hc
      exact (List.mem_filter.mp hc).2

theorem selectMiddleCodes_cons (fs : Option String) (choice : String)
    (rest : List String) :
    selectMiddleCodes fs (choice :: rest) =
      (if trimSpace choice == "1" then
        (selectChoice1 fs).1.orElse fun _ =>
          selectMiddleCodes (selectChoice1 fs).2 rest
      else if trimSpace choice == "2" then
        match rest with
        | [] => selectChoice2 fs ""
        | line :: rest' =>
          (selectChoice2 fs line).orElse fun _ => selectMiddleCodes fs rest'
      else selectMiddleCodes fs rest) := by
  cases rest <;> simp [selectMiddleCodes]

theorem selectChoice1_some (fs : Option String) (r : SelectResult)
    (h : (selectChoice1 fs).1 = some r) :
    r.err = none ∧ r.middleCodes ≠ [] ∧ ∀ c ∈ r.middleCodes, matchesD4 c = true := by
  simp only [selectChoice1] at h
  split at h
  · simp at h
  · rename_i config fs' hload
    simp only [Option.some.injEq] at h
    subst h
    by_cases hemp : config.middleCodes.isEmpty = true
    · rw [if_pos hemp]
      refine ⟨rfl, by simp, ?_⟩
      intro c hc
      have hc' : c ∈ ["0537"] := hc
      simp only [List.mem_singleton] at hc'
      subst hc'
      decide
    · rw [if_neg hemp]
      refine ⟨rfl, ?_, loadConfig_ok_valid fs config fs' hload⟩
      intro hnil
      have hmc : config.middleCodes = [] := hnil
      rw [hmc] at hemp
      simp at hemp

theorem selectChoice2_some (fs : Option String) (line : String) (r : SelectResult)
    (h : selectChoice2 fs line = some r) :
    r.err = none ∧ r.middleCodes ≠ [] ∧ ∀ c ∈ r.middleCodes, matchesD4 c = true := by
  simp only [selectChoice2] at h
  split at h
  · simp at h
  · rename_i codes hok
    simp only [Option.some.injEq] at h
    subst h
    obtain ⟨-, hne, hval, -⟩ := inputMiddleCodes_ok line codes hok
    exact ⟨rfl, hne, hval⟩

/-- C10: whenever the middle-code selection loop returns, it returns a nil
error together with a non-empty list of middle codes all matching
`^\d{4}$`, no matter the file system or the console script. -/
theorem c10_select_middle_codes_invariant (fs : Option String) (inputs : List String)
    (r : SelectResult) :
    selectMiddleCodes fs inputs = some r →
    r.err = none ∧ r.middleCodes ≠ [] ∧ ∀ c ∈ r.middleCodes, matchesD4 c = true := by
  induction fs, inputs using selectMiddleCodes.induct with
  | case1 fs =>
    intro h
    simp [selectMiddleCodes] at h
  | case2 fs choice rest' h1 p ih =>
    intro h
    rw [selectMiddleCodes_cons] at h
    simp only [h1, if_true] at h
    cases hp : (selectChoice1 fs).1 with
    | some r' =>
      rw [hp] at h
      simp only [Option.orElse, Option.some.injEq] at h
      subst h
      exact selectChoice1_some fs r' hp
    | none =>
      rw [hp] at h
      simp only [Option.orElse] at h
      exact ih h
  | case3 fs choice h1 h2 =>
    intro h
    rw [selectMiddleCodes_cons] at h
    simp only [h1, h2, if_true, if_false, Bool.false_eq_true] at h
    exact selectChoice2_some fs "" r h
  | case4 fs choice h1 h2 line1 rest' ih =>
    intro h
    rw [selectMiddleCodes_cons] at h
    simp only [h1, h2, if_true, if_false, Bool.false_eq_true] at h
    cases hp : selectChoice2 fs line1 with
    | some r' =>
      rw [hp] at h
      simp only [Option.orElse, Option.some.injEq] at h
      subst h
      exact selectChoice2_some fs line1 r' hp
    | none =>
      rw [hp] at h
      simp only [Option.orElse] at h
      exact ih h
  | case5 fs choice rest' h1 h2 ih =>
    intro h
    rw [selectMiddleCodes_cons] at h
    simp only [h1, h2, if_false, Bool.false_eq_true] at h
    exact ih h

theorem writeLoop_invariant (writeErr : Nat → Option String) (phones : List String) :
    ∀ st : GenState,
    st.generatedCount = (writesOf st.events).length →
    (∀ i < st.generatedCount, writeErr i = none) →
    ((writeLoop writeErr phones st).1.generatedCount =
        (writesOf (writeLoop writeErr phones st).1.events).length ∧
      (∀ i < (writeLoop writeErr phones st).1.generatedCount, writeErr i = none) ∧
      ∀ msg, (writeLoop writeErr phones st).2 = some msg →
        ∃ cause,
          writeErr (writeLoop writeErr phones st).1.generatedCount = some cause ∧
          msg = "failed to write to file: " ++ cause) := by
  induction phones with
  | nil =>
    intro st h1 h2
    refine ⟨h1, h2, ?_⟩
    intro msg hmsg
    simp [writeLoop] at hmsg
  | cons phone rest ih =>
    intro st h1 h2
    cases hw : writeErr st.generatedCount with
    | some cause =>
      simp only [writeLoop, hw]
      refine ⟨h1, h2, ?_⟩
      intro msg hmsg
      simp only [Option.some.injEq] at hmsg
      exact ⟨cause, rfl, hmsg.symm⟩
    | none =>
      simp only [writeLoop, hw]
      split
      · refine ih _ ?_ ?_
        · simp [writesOf, h1]
        · intro i hi
          rcases Nat.lt_succ_iff_lt_or_eq.mp hi with hlt | heq
          · exact h2 i hlt
          · rw [heq]
            exact hw
      · refine ih _ ?_ ?_
        · simp [writesOf, h1]
        · intro i hi
          rcases Nat.lt_succ_iff_lt_or_eq.mp hi with hlt | heq
          · exact h2 i hlt
          · rw [heq]
            exact hw

theorem gen_events (writeErr : Nat → Option String) (M : List String) :
    (generatePhoneNumbers none writeErr M).2 =
      (writeLoop writeErr (phoneList M) ⟨[], 0⟩).1.events ++
        [Event.flush, Event.close] := by
  simp only [generatePhoneNumbers]
  split <;> rfl

theorem gen_result_error (writeErr : Nat → Option String) (M : List String)
    (msg : String) (h : (generatePhoneNumbers none writeErr M).1 = Except.error msg) :
    (writeLoop writeErr (phoneList M) ⟨[], 0⟩).2 = some msg := by
  simp only [generatePhoneNumbers] at h
  split at h
  · rename_i heq
    simp only [Except.error.injEq] at h
    rw [heq, h]
  · simp at h

/-- C9: with a successfully created output file, the event trace of a
generation run always ends with the deferred buffer flush and file close,
whatever the write outcomes; and when the run returns an error, the error
wraps the I/O cause of the first failing write, every earlier write
succeeded, and nothing is written after the failure, so the number of
written lines is exactly the index of the failing write. -/
theorem c9_write_error_handling (M : List String) (writeErr : Nat → Option String) :
    (∃ es, (generatePhoneNumbers none writeErr M).2 = es ++ [Event.flush, Event.close]) ∧
    (∀ msg, (generatePhoneNumbers none writeErr M).1 = Except.error msg →
      ∃ cause k, msg = "failed to write to file: " ++ cause ∧
        writeErr k = some cause ∧
        (writesOf (generatePhoneNumbers none writeErr M).2).length = k ∧
        ∀ i < k, writeErr i = none) := by
  obtain ⟨hc, he, herr⟩ :=
    writeLoop_invariant writeErr (phoneList M) ⟨[], 0⟩ rfl
      (by intro i hi; exact absurd hi (by simp))
  refine ⟨⟨_, gen_events writeErr M⟩, ?_⟩
  intro msg hmsg
  obtain ⟨cause, hcause, hmsgeq⟩ := herr msg (gen_result_error writeErr M msg hmsg)
  refine ⟨cause, (writeLoop writeErr (phoneList M) ⟨[], 0⟩).1.generatedCount,
    hmsgeq, hcause, ?_, he⟩
  rw [gen_events, writesOf_append]
  simp [writesOf, hc]

/-- C4: when `config.json` is missing, `loadConfig` creates it as the
indented JSON text holding exactly the four default middle codes and
returns the default configuration; a subsequent run reading that file back
yields the same four codes unchanged. -/
theorem c4_default_config_roundtrip :
    defaultConfig.middleCodes = ["0537", "0100", "0210", "0755"] ∧
    marshalConfig defaultConfig =
      "\x7b\n  \"middleCodes\": [\n    \"0537\",\n    \"0100\",\n    \"0210\",\n    \"0755\"\n  ]\n\x7d" ∧
    loadConfig none = (Except.ok defaultConfig, some (marshalConfig defaultConfig)) ∧
    loadConfig (some (marshalConfig defaultConfig)) =
      (Except.ok defaultConfig, some (marshalConfig defaultConfig)) := by
  refine ⟨rfl, by decide, rfl, by decide⟩

/-- C5: after a successful parse of an existing config file, `loadConfig`
keeps exactly the entries matching the 4-digit pattern, in their original
order (the result is the filtered sublist), and when nothing survives the
filter the driver falls back to the single default code `"0537"`. -/
theorem c5_config_filter_and_fallback :
    (∀ content codes, parseConfig content = Except.ok ⟨codes⟩ →
      (loadConfig (some content)).1 =
        Except.ok ⟨codes.filter (fun code => matchesD4 code)⟩ ∧
      (∀ c ∈ codes.filter (fun code => matchesD4 code), matchesD4 c = true) ∧
      (codes.filter (fun code => matchesD4 code)).Sublist codes) ∧
    (∀ content codes rest, parseConfig content = Except.ok ⟨codes⟩ →
      codes.filter (fun code => matchesD4 code) = [] →
      selectMiddleCodes (some content) ("1" :: rest) =
        some ⟨["0537"], none, some content⟩) := by
  constructor
  · intro content codes hp
    refine ⟨?_, ?_, List.filter_sublist codes⟩
    · simp [loadConfig, hp]
    · intro c hc
      exact (List.mem_filter.mp hc).2
  · intro content codes rest hp hfil
    rw [selectMiddleCodes_cons]
    have h1 : (trimSpace "1" == "1") = true := by decide
    simp [h1, selectChoice1, loadConfig, hp, hfil, Option.orElse]

/-- C6: manual entry validation accepts exactly the 4-digit numeric tokens,
the sample line is split on commas, trimmed, filtered and de-duplicated in
first-seen order, and in general a successful manual entry returns a
duplicate-free list holding exactly the trimmed tokens that match. -/
theorem c6_manual_input_parsing :
    matchesD4 "0537" = true ∧ matchesD4 "537" = false ∧ matchesD4 "05a7" = false ∧
    matchesD4 "05377" = false ∧ matchesD4 "" = false ∧
    inputMiddleCodes "0537,0100,0537, 0210" = Except.ok ["0537", "0100", "0210"] ∧
    ∀ text codes, inputMiddleCodes text = Except.ok codes →
      codes.Nodup ∧
      ∀ c, c ∈ codes ↔
        (c ∈ (splitOnComma (trimSpace text)).map trimSpace ∧ matchesD4 c = true) := by
  refine ⟨by decide, by decide, by decide, by decide, by decide, by decide, ?_⟩
  intro text codes h
  obtain ⟨hc, -, -, hnd⟩ := inputMiddleCodes_ok text codes h
  subst hc
  refine ⟨hnd, ?_⟩
  intro c
  rw [collectValid_mem]

/-- C7: a blank manual line yields the empty-input error, a line with no
surviving token yields the no-valid-codes error, and on either error the
driver goes back to prompting for the input method instead of stopping. -/
theorem c7_manual_input_errors :
    (∀ text, trimSpace text = "" →
      inputMiddleCodes text = Except.error "input cannot be empty") ∧
    (∀ text, trimSpace text ≠ "" →
      collectValid (splitOnComma (trimSpace text)) = [] →
      inputMiddleCodes text =
        Except.error "no valid middle codes detected (must enter 4-digit numbers separated by commas)") ∧
    (∀ fs line rest e, inputMiddleCodes line = Except.error e →
      selectMiddleCodes fs ("2" :: line :: rest) = selectMiddleCodes fs rest) := by
  refine ⟨?_, ?_, ?_⟩
  · intro text h
    simp [inputMiddleCodes, h]
  · intro text h hempty
    simp [inputMiddleCodes, h, hempty]
  · intro fs line rest e h
    rw [selectMiddleCodes_cons]
    have h1 : (trimSpace "2" == "1") = false := by decide
    have h2 : (trimSpace "2" == "2") = true := by decide
    simp [h1, h2, selectChoice2, h, Option.orElse]

/-- C8: a present but malformed `config.json` makes `loadConfig` return the
wrapped parse error, and the driver prompts again for the input method with
the file system untouched instead of terminating. -/
theorem c8_malformed_config (content cause : String) (rest : List String)
    (hp : parseConfig content = Except.error cause) :
    (loadConfig (some content)).1 =
      Except.error
        ("failed to parse config.json format (check commas and quotes): " ++ cause) ∧
    selectMiddleCodes (some content) ("1" :: rest) =
      selectMiddleCodes (some content) rest := by
  constructor
  · simp [loadConfig, hp]
  · rw [selectMiddleCodes_cons]
    have h1 : (trimSpace "1" == "1") = true := by decide
    simp [h1, selectChoice1, loadConfig, hp, Option.orElse]

/-- Witness instantiating C2 at the middle-code list `["0537"]`. -/
theorem c2_generator_line_shape_witness :
    (∀ m ∈ ["0537"], matchesD4 m = true) ∧
    ((∀ line ∈ writesOf (generatePhoneNumbers none (fun _ => none) ["0537"]).2,
      ∃ seg middle suffix, seg ∈ allSegments ∧ middle ∈ ["0537"] ∧ suffix < 10000 ∧
        line = seg ++ middle ++ sprintf04 suffix ++ "\n" ∧
        matchesD11 (seg ++ middle ++ sprintf04 suffix) = true) ∧
    (∀ seg middle suffix seg2 middle2 suffix2,
      seg ∈ allSegments → middle ∈ ["0537"] → suffix < 10000 →
      seg2 ∈ allSegments → middle2 ∈ ["0537"] → suffix2 < 10000 →
      seg ++ middle ++ sprintf04 suffix = seg2 ++ middle2 ++ sprintf04 suffix2 →
      seg = seg2 ∧ middle = middle2 ∧ suffix = suffix2)) :=
  ⟨by decide, c2_generator_line_shape ["0537"] (by decide)⟩

/-- Witness instantiating C5 at a config whose only entry is invalid. -/
theorem c5_config_filter_and_fallback_witness :
    (parseConfig "\x7b\"middleCodes\": [\"12ab\"]\x7d" = Except.ok ⟨["12ab"]⟩) ∧
    (["12ab"].filter (fun code => matchesD4 code) = []) ∧
    ((loadConfig (some "\x7b\"middleCodes\": [\"12ab\"]\x7d")).1 =
      Except.ok ⟨["12ab"].filter (fun code => matchesD4 code)⟩) ∧
    selectMiddleCodes (some "\x7b\"middleCodes\": [\"12ab\"]\x7d") ["1"] =
      some ⟨["0537"], none, some "\x7b\"middleCodes\": [\"12ab\"]\x7d"⟩ :=
  have hp : parseConfig "\x7b\"middleCodes\": [\"12ab\"]\x7d" =
      Except.ok ⟨["12ab"]⟩ := by decide
  have hf : ["12ab"].filter (fun code => matchesD4 code) = [] := by decide
  ⟨hp, hf, (c5_config_filter_and_fallback.1 _ _ hp).1,
    c5_config_filter_and_fallback.2 _ _ [] hp hf⟩

/-- Witness instantiating C6 at the sample input line of the spec. -/
theorem c6_manual_input_parsing_witness :
    (inputMiddleCodes "0537,0100,0537, 0210" = Except.ok ["0537", "0100", "0210"]) ∧
    (["0537", "0100", "0210"].Nodup ∧
      ∀ c, c ∈ ["0537", "0100", "0210"] ↔
        (c ∈ (splitOnComma (trimSpace "0537,0100,0537, 0210")).map trimSpace ∧
          matchesD4 c = true)) :=
  have h : inputMiddleCodes "0537,0100,0537, 0210" =
      Except.ok ["0537", "0100", "0210"] := by decide
  ⟨h, c6_manual_input_parsing.2.2.2.2.2.2 _ _ h⟩

/-- Witness instantiating C7 at a blank line, a line with no valid token,
and a driver script that hits the manual-entry error. -/
theorem c7_manual_input_errors_witness :
    (trimSpace "  " = "") ∧
    (inputMiddleCodes "  " = Except.error "input cannot be empty") ∧
    (trimSpace "abc" ≠ "") ∧
    (collectValid (splitOnComma (trimSpace "abc")) = []) ∧
    (inputMiddleCodes "abc" =
      Except.error "no valid middle codes detected (must enter 4-digit numbers separated by commas)") ∧
    (inputMiddleCodes "" = Except.error "input cannot be empty") ∧
    (selectMiddleCodes none ["2", ""] = selectMiddleCodes none []) :=
  have h1 : trimSpace "  " = "" := by decide
  have h2 : trimSpace "abc" ≠ "" := by decide
  have h3 : collectValid (splitOnComma (trimSpace "abc")) = [] := by decide
  have h4 : inputMiddleCodes "" = Except.error "input cannot be empty" :=
    c7_manual_input_errors.1 "" (by decide)
  ⟨h1, c7_manual_input_errors.1 "  " h1, h2, h3,
    c7_manual_input_errors.2.1 "abc" h2 h3, h4,
    c7_manual_input_errors.2.2 none "" [] "input cannot be empty" h4⟩

/-- Witness instantiating C8 at a malformed config file. -/
theorem c8_malformed_config_witness :
    (parseConfig "\x7binvalid" =
      Except.error "invalid character looking for object key") ∧
    ((loadConfig (some "\x7binvalid")).1 =
      Except.error ("failed to parse config.json format (check commas and quotes): " ++
        "invalid character looking for object key")) ∧
    (selectMiddleCodes (some "\x7binvalid") ["1", "2", "0537"] =
      selectMiddleCodes (some "\x7binvalid") ["2", "0537"]) :=
  have hp : parseConfig "\x7binvalid" =
      Except.error "invalid character looking for object key" := by decide
  ⟨hp, (c8_malformed_config _ _ ["2", "0537"] hp).1,
    (c8_malformed_config _ _ ["2", "0537"] hp).2⟩

/-- Witness instantiating C9 at a writer that fails on its very first
write. -/
theorem c9_write_error_handling_witness :
    ((generatePhoneNumbers none (fun _ => some "disk full") ["0537"]).1 =
      Except.error "failed to write to file: disk full") ∧
    (∃ cause k, "failed to write to file: disk full" = "failed to write to file: " ++ cause ∧
      (fun _ : Nat => some "disk full") k = some cause ∧
      (writesOf (generatePhoneNumbers none (fun _ => some "disk full") ["0537"]).2).length = k ∧
      ∀ i < k, (fun _ : Nat => some "disk full") i = none) :=
  have hne : phoneList ["0537"] ≠ [] := by
    intro hnil
    have hl := length_phoneList ["0537"]
    rw [hnil] at hl
    simp at hl
  have hh : (generatePhoneNumbers none (fun _ => some "disk full") ["0537"]).1 =
      Except.error "failed to write to file: disk full" := by
    obtain ⟨p, rest, hcons⟩ := List.exists_cons_of_ne_nil hne
    simp only [generatePhoneNumbers, hcons]
    simp only [writeLoop]
    rfl
  ⟨hh, (c9_write_error_handling ["0537"] (fun _ => some "disk full")).2 _ hh⟩

/-- Witness instantiating C10 at a missing config file and the script that
chooses option 1. -/
theorem c10_select_middle_codes_invariant_witness :
    (selectMiddleCodes none ["1"] =
      some ⟨["0537", "0100", "0210", "0755"], none, some (marshalConfig defaultConfig)⟩) ∧
    ((⟨["0537", "0100", "0210", "0755"], none,
        some (marshalConfig defaultConfig)⟩ : SelectResult).err = none ∧
      (⟨["0537", "0100", "0210", "0755"], none,
        some (marshalConfig defaultConfig)⟩ : SelectResult).middleCodes ≠ [] ∧
      ∀ c ∈ (⟨["0537", "0100", "0210", "0755"], none,
        some (marshalConfig defaultConfig)⟩ : SelectResult).middleCodes,
        matchesD4 c = true) :=
  have h : selectMiddleCodes none ["1"] =
      some ⟨["0537", "0100", "0210", "0755"], none,
        some (marshalConfig defaultConfig)⟩ := by decide
  ⟨h, c10_select_middle_codes_invariant none ["1"] _ h⟩
